import Mathlib

/-!
Verification of the git-chronos commit engine core (src/lib/index.js).

The JavaScript source is shallowly embedded: calendar dates in the
configured timezone are abstracted to integers (the value the source's
`getDatePart` helper yields, one integer per calendar day), JS numbers
holding counts and configuration are embedded as `Int`, the
`Math.random()` draw is an explicit rational parameter in `[0,1)`, and
effectful operations (file system, subprocesses, process exit) become
explicit state passing with `Except` and result types.
-/

namespace GitChronos

/-- In-memory commit tracker cache (`commitTrackerCache`, index.js lines
162-165): `commitCount` plus the calendar day (in the configured
timezone) on which `lastRunDate` falls. -/
structure Tracker where
  commitCount : Int
  lastRunDate : Int
  deriving DecidableEq, Repr

/-- Embedding of `getDailyCommitCount` (index.js lines 371-379): if the
calendar day of `lastRunDate` differs from the day of `now`, reset the
count to 0 and stamp `lastRunDate` with `now`; return the (possibly
reset) count together with the updated cache. -/
def getDailyCommitCount (st : Tracker) (now : Int) : Int × Tracker :=
  if st.lastRunDate ≠ now then ((0 : Int), ⟨0, now⟩)
  else (st.commitCount, st)

/-- Embedding of `shouldCommitToday` (index.js lines 393-395). -/
def shouldCommitToday (st : Tracker) (now dailyLimit : Int) : Bool × Tracker :=
  let r := getDailyCommitCount st now
  (decide (r.1 < dailyLimit), r.2)

/-- Embedding of the in-memory part of `updateCommitCount` (index.js
lines 398-401): increment the cached count; the write-through save is
modelled on the system state where persistence matters. -/
def updateCommitCount (st : Tracker) : Tracker :=
  { st with commitCount := st.commitCount + 1 }

/-- The remaining daily quota as the scheduler computes and uses it
(`runBot`, index.js lines 421-431): the quota gate `shouldCommitToday`
short-circuits the tick once the count has reached the limit (the
scheduler then proceeds with 0 further commits), and otherwise the tick
computes `CONFIG.DAILY_LIMIT - getDailyCommitCount()`. -/
def remainingToday (st : Tracker) (now dailyLimit : Int) : Int × Tracker :=
  let g := shouldCommitToday st now dailyLimit
  if g.1 then
    let r := getDailyCommitCount g.2 now
    (dailyLimit - r.1, r.2)
  else ((0 : Int), g.2)

/-- The specification's formula for `remainingToday` (spec section 4.1):
`max(0, dailyLimit - effectiveCount)` where `effectiveCount` is
`commitCount` when `lastRunDate` falls on the same calendar day as
`now`, and 0 otherwise. -/
def remainingTodaySpec (st : Tracker) (now dailyLimit : Int) : Int :=
  max 0 (dailyLimit - (if st.lastRunDate = now then st.commitCount else 0))

/-- Claim C2: for every tracker state and every now, the scheduler's
remaining-quota computation equals `max(0, dailyLimit - effectiveCount)`
with `effectiveCount` as in the spec; the rollover is applied to the
in-memory state; the result is never negative; and a second call with
the same now returns the same value. -/
theorem remainingToday_correct (st : Tracker) (now dailyLimit : Int) :
    (remainingToday st now dailyLimit).1 = remainingTodaySpec st now dailyLimit ∧
    0 ≤ (remainingToday st now dailyLimit).1 ∧
    (remainingToday st now dailyLimit).2 =
      ⟨if st.lastRunDate = now then st.commitCount else 0, now⟩ ∧
    (remainingToday (remainingToday st now dailyLimit).2 now dailyLimit).1 =
      (remainingToday st now dailyLimit).1 := by
  obtain ⟨c, d⟩ := st
  by_cases h : d = now <;>
    simp only [remainingToday, remainingTodaySpec, shouldCommitToday,
      getDailyCommitCount, h, ne_eq, not_true_eq_false, not_false_eq_true,
      if_true, if_false, ite_true, ite_false, decide_eq_true_eq] <;>
    split_ifs <;> simp_all <;> omega

/-- Resolved numeric startup parameters (index.js lines 87-95): the
value each of `minCommits .. retryDelay` holds after the
`Number(cliArg) || Number(envVar) || default` fallback chain (inputs
that fail to parse as numbers are rejected separately at lines 98-104
with a non-zero exit, so only genuine numbers reach the checks embedded
here). -/
structure RawParams where
  minCommits : Int
  maxCommits : Int
  dailyLimit : Int
  commitDelayMin : Int
  commitDelayMax : Int
  scheduleStart : Int
  scheduleEnd : Int
  retryAttempts : Int
  retryDelay : Int
  deriving DecidableEq, Repr

/-- The numeric and boolean fields of `CONFIG` (index.js lines
124-142). -/
structure Config where
  minCommits : Int
  maxCommits : Int
  dailyLimit : Int
  commitDelayMin : Int
  commitDelayMax : Int
  scheduleStart : Int
  scheduleEnd : Int
  retryAttempts : Int
  retryDelay : Int
  enableWeekends : Bool
  deriving DecidableEq, Repr

/-- Embedding of the CLI/environment startup path, index.js lines
107-148: the schedule-hour check (line 107), `retryAttempts` check
(line 111), `retryDelay` check (line 115), the clamping performed while
building `CONFIG` (`MAX_COMMITS = min(max(maxCommits,1),100)`,
`MIN_COMMITS = max(minCommits,1)`, `DAILY_LIMIT = max(dailyLimit,1)`,
lines 129-131), and the commit-limit check on the clamped values (line
145). An `Except.error 1` is a `process.exit(1)` before any lock,
tracker or repository state is touched. -/
def buildConfigCLI (r : RawParams) (enableWeekends : Bool) : Except Nat Config :=
  if r.scheduleStart < 0 ∨ 23 < r.scheduleStart ∨ r.scheduleEnd < 0 ∨
      23 < r.scheduleEnd ∨ r.scheduleEnd ≤ r.scheduleStart then .error 1
  else if r.retryAttempts < 1 then .error 1
  else if r.retryDelay < 0 then .error 1
  else
    let cfg : Config :=
      { minCommits := max r.minCommits 1
        maxCommits := min (max r.maxCommits 1) 100
        dailyLimit := max r.dailyLimit 1
        commitDelayMin := r.commitDelayMin
        commitDelayMax := r.commitDelayMax
        scheduleStart := r.scheduleStart
        scheduleEnd := r.scheduleEnd
        retryAttempts := r.retryAttempts
        retryDelay := r.retryDelay
        enableWeekends := enableWeekends }
    if cfg.minCommits < 1 ∨ cfg.maxCommits < cfg.minCommits ∨
        cfg.dailyLimit < cfg.minCommits then .error 1
    else .ok cfg

/-- Embedding of the interactive-menu validation, index.js lines
564-586, applied to the `CONFIG` object after the interactive overrides
of lines 544-562: schedule hours (line 564), commit delays (line 569),
daily-limit constraints (line 574), retry attempts (line 579) and retry
delay (line 583). -/
def validateInteractive (c : Config) : Except Nat Config :=
  if c.scheduleStart < 0 ∨ 23 < c.scheduleStart ∨ c.scheduleEnd < 0 ∨
      23 < c.scheduleEnd ∨ c.scheduleEnd ≤ c.scheduleStart then .error 1
  else if c.commitDelayMin < 0 ∨ c.commitDelayMax < c.commitDelayMin then .error 1
  else if c.dailyLimit < 1 ∨ c.dailyLimit < c.minCommits ∨
      c.dailyLimit < c.maxCommits then .error 1
  else if c.retryAttempts < 1 then .error 1
  else if c.retryDelay < 0 then .error 1
  else .ok c

/-- Claim C4 counterexample: the CLI/environment path accepts a
configuration the claim requires it to reject. With resolved parameters
minCommits = -5, maxCommits = 10, dailyLimit = 5, commitDelayMin =
-100, commitDelayMax = 5000, schedule 9-17, retryAttempts 3, retryDelay
5000, we have minCommits < 1, dailyLimit < maxCommits and
commitDelayMin < 0, yet startup accepts (clamping minCommits to 1)
instead of exiting non-zero. -/
theorem buildConfigCLI_accepts_bad_config :
    (buildConfigCLI ⟨-5, 10, 5, -100, 5000, 9, 17, 3, 5000⟩ false).isOk = true ∧
    (-5 : Int) < 1 ∧ (5 : Int) < 10 ∧ (-100 : Int) < 0 := by
  decide

/-- Claim C4 (amended): the CLI/environment path rejects, with a
non-zero exit before any state is touched, exactly those configurations
where scheduleStart or scheduleEnd is outside [0,23] or start ≥ end, or
retryAttempts < 1, or retryDelay < 0, or — after clamping minCommits up
to 1, maxCommits into [1,100] and dailyLimit up to 1 — maxCommits <
minCommits or dailyLimit < minCommits; it does not check the commit
delays or dailyLimit < maxCommits, and sub-1 minCommits or dailyLimit
values are clamped rather than rejected. The interactive path rejects
exactly those configurations where the schedule is invalid as above, or
commitDelayMin < 0 or commitDelayMax < commitDelayMin, or dailyLimit <
1 or dailyLimit < minCommits or dailyLimit < maxCommits, or
retryAttempts < 1 or retryDelay < 0; it does not itself reject
minCommits < 1 or maxCommits < minCommits. -/
theorem startup_validation_characterization (r : RawParams) (w : Bool) (c : Config) :
    ((buildConfigCLI r w).isOk = false ↔
      (r.scheduleStart < 0 ∨ 23 < r.scheduleStart ∨ r.scheduleEnd < 0 ∨
        23 < r.scheduleEnd ∨ r.scheduleEnd ≤ r.scheduleStart ∨
        r.retryAttempts < 1 ∨ r.retryDelay < 0 ∨
        min (max r.maxCommits 1) 100 < max r.minCommits 1 ∨
        max r.dailyLimit 1 < max r.minCommits 1)) ∧
    ((validateInteractive c).isOk = false ↔
      (c.scheduleStart < 0 ∨ 23 < c.scheduleStart ∨ c.scheduleEnd < 0 ∨
        23 < c.scheduleEnd ∨ c.scheduleEnd ≤ c.scheduleStart ∨
        c.commitDelayMin < 0 ∨ c.commitDelayMax < c.commitDelayMin ∨
        c.dailyLimit < 1 ∨ c.dailyLimit < c.minCommits ∨
        c.dailyLimit < c.maxCommits ∨
        c.retryAttempts < 1 ∨ c.retryDelay < 0)) := by
  constructor
  · simp only [buildConfigCLI]
    split_ifs <;> simp_all [Except.isOk, Except.toBool] <;> omega
  · simp only [validateInteractive]
    split_ifs <;> simp_all [Except.isOk, Except.toBool] <;> omega

/-- Claim C10: every configuration the CLI/environment path accepts has
maxCommits ≤ 100 and minCommits, dailyLimit ≥ 1, because out-of-range
values of these three parameters are silently clamped into range at
startup (minCommits and dailyLimit up to 1, maxCommits into [1,100])
rather than rejected. -/
theorem acceptedConfig_clamped (r : RawParams) (w : Bool) (c : Config)
    (h : buildConfigCLI r w = .ok c) :
    c.maxCommits ≤ 100 ∧ 1 ≤ c.minCommits ∧ 1 ≤ c.dailyLimit ∧
    c.minCommits = max r.minCommits 1 ∧
    c.maxCommits = min (max r.maxCommits 1) 100 ∧
    c.dailyLimit = max r.dailyLimit 1 := by
  simp only [buildConfigCLI] at h
  split_ifs at h <;> simp at h
  subst h
  refine ⟨?_, ?_, ?_, rfl, rfl, rfl⟩ <;> simp <;> omega

/-- Claim C10 witness: the out-of-range parameters minCommits = -5,
maxCommits = 500, dailyLimit = -7 are accepted, clamped to 1, 100 and 1
respectively. -/
theorem acceptedConfig_clamped_witness :
    (buildConfigCLI ⟨-5, 500, -7, 1000, 5000, 9, 17, 3, 5000⟩ false =
      .ok ⟨1, 100, 1, 1000, 5000, 9, 17, 3, 5000, false⟩) ∧
    ((1 : Int) ≤ 100 ∧ (1 : Int) ≤ 1 ∧ (1 : Int) ≤ 1 ∧
      (1 : Int) = max (-5) 1 ∧ (100 : Int) = min (max 500 1) 100 ∧
      (1 : Int) = max (-7) 1) := by
  refine ⟨by rfl, ?_⟩
  have h := acceptedConfig_clamped ⟨-5, 500, -7, 1000, 5000, 9, 17, 3, 5000⟩ false
    ⟨1, 100, 1, 1000, 5000, 9, 17, 3, 5000, false⟩ (by rfl)
  simpa using h

/-- The file-system state the concurrency and shutdown code touches:
the lock file's content (`None` when the file does not exist, otherwise
the recorded owning pid, index.js line 482 writes `process.pid`), and
the persisted commit tracker record (`None` when the file does not
exist). -/
structure Fs where
  lock : Option Nat
  trackerDisk : Option Tracker
  deriving DecidableEq, Repr

/-- Embedding of `checkLock` (index.js lines 462-476). `alive` is the
liveness probe `process.kill(pid, 0)` (true when the signal-0 probe
succeeds). No lock file: the outer catch swallows the read failure and
the process proceeds with the state untouched. Lock file present and
owner alive: `process.exit(1)` — modelled as `Except.error` carrying
the exit code and the file system exactly as it was (no write happens
before the exit). Lock file present and owner dead: the stale marker is
unlinked and the process proceeds. -/
def checkLock (fs : Fs) (alive : Nat → Bool) : Except (Nat × Fs) Fs :=
  match fs.lock with
  | none => .ok fs
  | some p => if alive p then .error (1, fs) else .ok { fs with lock := none }

/-- Embedding of `createLock` (index.js lines 479-488): write the
current process's pid as the whole content of the lock file. (A write
failure exits non-zero; the write itself is modelled as succeeding.) -/
def createLock (fs : Fs) (myPid : Nat) : Fs :=
  { fs with lock := some myPid }

/-- The startup locking sequence `await checkLock(); await createLock()`
(index.js lines 593-594): `createLock` runs only when `checkLock` did
not exit the process. -/
def acquireLock (fs : Fs) (alive : Nat → Bool) (myPid : Nat) : Except (Nat × Fs) Fs :=
  match checkLock fs alive with
  | .error e => .error e
  | .ok fs1 => .ok (createLock fs1 myPid)

/-- Embedding of `removeLock` (index.js lines 491-498): unlink the lock
file; a failure (in particular the file being already absent) is logged
and swallowed — the returned flag records whether the error branch was
taken, and the function always returns normally. -/
def removeLock (fs : Fs) : Fs × Bool :=
  match fs.lock with
  | none => (fs, true)
  | some _ => ({ fs with lock := none }, false)

/-- Claim C6: if the lock marker exists and its recorded pid is alive,
`checkLock` exits the process with status 1 and the file system is
untouched; hence in two back-to-back startup lock acquisitions without
a release, with the first owner still alive, the second exits with
status 1 having performed no writes. -/
theorem checkLock_conflict (fs fs0 : Fs) (alive : Nat → Bool) (p a b : Nat)
    (hl : fs.lock = some p) (ha : alive p = true)
    (h0 : fs0.lock = none) (haA : alive a = true) :
    checkLock fs alive = .error (1, fs) ∧
    acquireLock fs0 alive a = .ok (createLock fs0 a) ∧
    acquireLock (createLock fs0 a) alive b = .error (1, createLock fs0 a) := by
  refine ⟨?_, ?_, ?_⟩
  · simp [checkLock, hl, ha]
  · simp [acquireLock, checkLock, h0]
  · simp [acquireLock, checkLock, createLock, haA]

/-- Claim C6 witness: with one live owner holding the lock, a second
startup exits with status 1 and leaves the file system untouched. -/
theorem checkLock_conflict_witness :
    checkLock ⟨some 7, none⟩ (fun p => p == 7) = .error (1, ⟨some 7, none⟩) ∧
    acquireLock ⟨none, none⟩ (fun p => p == 7) 7 = .ok (createLock ⟨none, none⟩ 7) ∧
    acquireLock (createLock ⟨none, none⟩ 7) (fun p => p == 7) 9 =
      .error (1, createLock ⟨none, none⟩ 7) :=
  checkLock_conflict ⟨some 7, none⟩ ⟨none, none⟩ (fun p => p == 7) 7 7 9
    rfl rfl rfl rfl

/-- Claim C8: if the lock marker exists but its recorded pid is not
alive, `checkLock` deletes the stale marker and proceeds, and a
subsequent `createLock` succeeds, writing the current process's pid as
the marker's content. -/
theorem checkLock_stale_recovery (fs : Fs) (alive : Nat → Bool) (p myPid : Nat)
    (hl : fs.lock = some p) (hd : alive p = false) :
    checkLock fs alive = .ok { fs with lock := none } ∧
    acquireLock fs alive myPid = .ok { fs with lock := some myPid } ∧
    (acquireLock fs alive myPid).isOk = true := by
  refine ⟨?_, ?_, ?_⟩
  · simp [checkLock, hl, hd]
  · simp [acquireLock, checkLock, createLock, hl, hd]
  · simp [acquireLock, checkLock, createLock, hl, hd, Except.isOk, Except.toBool]

/-- Claim C8 witness: pid 42 recorded, not alive; the marker is removed
and pid 9 takes the lock. -/
theorem checkLock_stale_recovery_witness :
    checkLock ⟨some 42, none⟩ (fun _ => false) = .ok ⟨none, none⟩ ∧
    acquireLock ⟨some 42, none⟩ (fun _ => false) 9 = .ok ⟨some 9, none⟩ ∧
    (acquireLock ⟨some 42, none⟩ (fun _ => false) 9).isOk = true :=
  checkLock_stale_recovery ⟨some 42, none⟩ (fun _ => false) 42 9 rfl rfl

/-- Process-level state for the shutdown coordinator: file system,
in-memory tracker cache, the one-shot `isShuttingDown` flag (index.js
line 504) and the exit status once `process.exit` has run. -/
structure Sys where
  fs : Fs
  cache : Tracker
  isShuttingDown : Bool
  exitCode : Option Nat
  deriving DecidableEq, Repr

/-- Embedding of `saveCommitTracker` (index.js lines 382-390): full
overwrite of the persisted record with the in-memory cache. -/
def saveCommitTracker (fs : Fs) (cache : Tracker) : Fs :=
  { fs with trackerDisk := some cache }

/-- Embedding of `gracefulShutdown` (index.js lines 506-519): return
immediately when the one-shot flag is set; otherwise set the flag, save
the tracker, release the lock (both failures caught and logged), and in
the `finally` block exit with status 0. -/
def gracefulShutdown (s : Sys) : Sys :=
  if s.isShuttingDown then s
  else
    let fs1 := saveCommitTracker s.fs s.cache
    let fs2 := (removeLock fs1).1
    ⟨fs2, s.cache, true, some 0⟩

/-- Claim C9: the first shutdown trigger persists the in-memory tracker
state, releases the instance lock and exits with status 0, setting the
one-shot flag; a trigger arriving with the flag already set returns
without any effect; therefore however many signals arrive the shutdown
body runs at most once; and releasing the lock when the marker no
longer exists is safe and non-fatal (the unlink failure is logged and
swallowed, the state is unchanged). -/
theorem gracefulShutdown_once (fs : Fs) (t : Tracker) (e : Option Nat)
    (d : Option Tracker) :
    gracefulShutdown ⟨fs, t, false, e⟩ = ⟨⟨none, some t⟩, t, true, some 0⟩ ∧
    gracefulShutdown ⟨fs, t, true, e⟩ = ⟨fs, t, true, e⟩ ∧
    gracefulShutdown (gracefulShutdown ⟨fs, t, false, e⟩) =
      gracefulShutdown ⟨fs, t, false, e⟩ ∧
    removeLock ⟨none, d⟩ = (⟨none, d⟩, true) := by
  obtain ⟨l, td⟩ := fs
  cases l <;> simp [gracefulShutdown, saveCommitTracker, removeLock]

/-- What the persisted tracker file can hold when `initCommitTracker`
runs: no file at all, content on which `JSON.parse` throws, or a parsed
record (any well-formed record — the source performs no validation of
the parsed fields, index.js line 177). -/
inductive DiskContent where
  | missing
  | corrupt
  | record (t : Tracker)
  deriving DecidableEq, Repr

/-- Embedding of `initCommitTracker` (index.js lines 168-185), run with
`now` the calendar day at process start (the initial cache of lines
162-165 stamps `lastRunDate` with the startup time): a missing file
leaves the zero-value initial cache (and writes it out); a parsed
record is adopted verbatim into the cache with no validation; a parse
failure is caught, logged, and the cache reinitialized to the
zero-value record. -/
def initCommitTracker (d : DiskContent) (now : Int) : Tracker :=
  match d with
  | .missing => ⟨0, now⟩
  | .corrupt => ⟨0, now⟩
  | .record t => t

/-- The two in-memory tracker mutations the process performs after
load: the date rollover inside `getDailyCommitCount` (index.js lines
374-377) and the increment of `updateCommitCount` (line 399). -/
inductive TrackerOp where
  | rollover (now : Int)
  | record

/-- Apply one tracker mutation to the in-memory cache. -/
def applyOp (st : Tracker) : TrackerOp → Tracker
  | .rollover now => (getDailyCommitCount st now).2
  | .record => updateCommitCount st

/-- Apply a sequence of tracker mutations, oldest first. -/
def applyOps (st : Tracker) (ops : List TrackerOp) : Tracker :=
  ops.foldl applyOp st

/-- Claim C5 counterexample: the claim quantifies over any well-formed
on-disk record, but `initCommitTracker` adopts a parsed record
verbatim, so loading the well-formed record with `commitCount = -1`
(and no subsequent operations) leaves a negative in-memory count. -/
theorem initCommitTracker_adopts_negative_count :
    (applyOps (initCommitTracker (.record ⟨-1, 0⟩) 0) []).commitCount < 0 := by
  decide

/-- Preservation: rollover and recordCommit keep the cached count
non-negative. -/
theorem applyOp_commitCount_nonneg (st : Tracker) (op : TrackerOp)
    (h : 0 ≤ st.commitCount) : 0 ≤ (applyOp st op).commitCount := by
  cases op with
  | rollover now =>
      simp only [applyOp, getDailyCommitCount]
      split <;> simpa
  | record => simpa [applyOp, updateCommitCount] using Int.le_add_one h

/-- Claim C5 (amended): after `load()` of a missing or unparseable
tracker file the in-memory commitCount is 0, and the date-rollover and
recordCommit operations preserve non-negativity; but a well-formed
on-disk record is adopted verbatim, so the invariant holds after any
subsequent sequence of operations provided the loaded record's
commitCount was itself non-negative (as is the case for every record
the program itself persists) — not for arbitrary well-formed records. -/
theorem tracker_commitCount_nonneg (d : DiskContent) (now : Int)
    (ops : List TrackerOp)
    (h : ∀ t, d = .record t → 0 ≤ t.commitCount) :
    0 ≤ (applyOps (initCommitTracker d now) ops).commitCount := by
  have h0 : 0 ≤ (initCommitTracker d now).commitCount := by
    cases d with
    | missing => simp [initCommitTracker]
    | corrupt => simp [initCommitTracker]
    | record t => exact h t rfl
  rw [applyOps]
  induction ops generalizing d now with
  | nil => exact h0
  | cons op rest ih =>
      rw [List.foldl_cons]
      exact ih (.record (applyOp (initCommitTracker d now) op)) now
        (fun t ht => by
          cases ht
          exact applyOp_commitCount_nonneg _ _ h0)
        (applyOp_commitCount_nonneg _ _ h0)

/-- Claim C5 witness: loading the record `⟨3, day 5⟩`, rolling over to
day 6 and recording two commits leaves a non-negative count. -/
theorem tracker_commitCount_nonneg_witness :
    (∀ t, DiskContent.record ⟨3, 5⟩ = DiskContent.record t → 0 ≤ t.commitCount) ∧
    0 ≤ (applyOps (initCommitTracker (.record ⟨3, 5⟩) 5)
      [.rollover 6, .record, .record]).commitCount := by
  have h : ∀ t, DiskContent.record ⟨3, 5⟩ = DiskContent.record t →
      0 ≤ t.commitCount := by
    intro t ht
    cases ht
    decide
  exact ⟨h, tracker_commitCount_nonneg (.record ⟨3, 5⟩) 5
    [.rollover 6, .record, .record] h⟩

/-- A git stage/commit/push failure, characterized by which of the
three known-transient message patterns of index.js lines 309-313 it
matches: `fatal: unable to access`, `repository is locked`, `could not
lock`. -/
structure GitError where
  unableToAccess : Bool
  repositoryLocked : Bool
  couldNotLock : Bool
  deriving DecidableEq, Repr

/-- The transient-error classification of index.js lines 309-313. -/
def isTransient (e : GitError) : Bool :=
  e.unableToAccess || e.repositoryLocked || e.couldNotLock

/-- Observable executor events: the step-1 file mutation
(`modifyFile`), one run of the stage-commit-push sequence (attempt
number attached), and one retry sleep with its duration in
milliseconds. -/
inductive ExecEvent where
  | mutate
  | gitAttempt (n : Nat)
  | sleep (ms : Nat)
  deriving DecidableEq, Repr

/-- Predicate picking out sleep events. -/
def isSleepEv : ExecEvent → Bool
  | .sleep _ => true
  | _ => false

/-- Predicate picking out file-mutation events. -/
def isMutateEv : ExecEvent → Bool
  | .mutate => true
  | _ => false

/-- Number of retry sleeps in an executor trace. -/
def countSleeps (tr : List ExecEvent) : Nat := tr.countP isSleepEv

/-- Number of file mutations in an executor trace. -/
def countMutations (tr : List ExecEvent) : Nat := tr.countP isMutateEv

/-- The retry loop of `performGitOperations` (index.js lines 296-320):
`env a` is the outcome of the a-th run of the whole stage-commit-push
sequence (`none` = success, `some e` = the error it threw). On failure,
when the attempt count is still below `total` and the error matches a
transient pattern, sleep `delayMs` and try again; otherwise rethrow.
`fuel` is the number of loop iterations still permitted (initially
`total`, so the loop body runs at most `total` times). -/
def gitLoop (env : Nat → Option GitError) (total delayMs : Nat) :
    Nat → Nat → Option GitError × List ExecEvent
  | _, 0 => (none, [])
  | attempt, fuel + 1 =>
    match env attempt with
    | none => (none, [.gitAttempt attempt])
    | some e =>
      if attempt < total ∧ isTransient e = true then
        let r := gitLoop env total delayMs (attempt + 1) fuel
        (r.1, .gitAttempt attempt :: .sleep delayMs :: r.2)
      else (some e, [.gitAttempt attempt])

/-- Embedding of `performGitOperations` (index.js lines 288-321):
attempts are numbered from 1 as in the source's `for` loop. -/
def performGitOperations (env : Nat → Option GitError) (total delayMs : Nat) :
    Option GitError × List ExecEvent :=
  gitLoop env total delayMs 1 total

/-- One executor call as `runBot` performs it (index.js lines 438-439):
`modifyFile()` once, then `performGitOperations()` — the file mutation
sits outside the retry loop, so retries never re-apply it. -/
def executeCommit (env : Nat → Option GitError) (total delayMs : Nat) :
    Option GitError × List ExecEvent :=
  let r := performGitOperations env total delayMs
  (r.1, ExecEvent.mutate :: r.2)

/-- Counting helper: a git attempt contributes no sleep. -/
theorem countSleeps_cons_gitAttempt (n : Nat) (l : List ExecEvent) :
    countSleeps (.gitAttempt n :: l) = countSleeps l := by
  simp [countSleeps, List.countP_cons, isSleepEv]

/-- Counting helper: a sleep event contributes one sleep. -/
theorem countSleeps_cons_sleep (m : Nat) (l : List ExecEvent) :
    countSleeps (.sleep m :: l) = countSleeps l + 1 := by
  simp [countSleeps, List.countP_cons, isSleepEv]

/-- Counting helper: a file mutation contributes no sleep. -/
theorem countSleeps_cons_mutate (l : List ExecEvent) :
    countSleeps (.mutate :: l) = countSleeps l := by
  simp [countSleeps, List.countP_cons, isSleepEv]

/-- Counting helper: a git attempt contributes no mutation. -/
theorem countMutations_cons_gitAttempt (n : Nat) (l : List ExecEvent) :
    countMutations (.gitAttempt n :: l) = countMutations l := by
  simp [countMutations, List.countP_cons, isMutateEv]

/-- Counting helper: a sleep contributes no mutation. -/
theorem countMutations_cons_sleep (m : Nat) (l : List ExecEvent) :
    countMutations (.sleep m :: l) = countMutations l := by
  simp [countMutations, List.countP_cons, isMutateEv]

/-- Counting helper: a file mutation contributes one mutation. -/
theorem countMutations_cons_mutate (l : List ExecEvent) :
    countMutations (.mutate :: l) = countMutations l + 1 := by
  simp [countMutations, List.countP_cons, isMutateEv]

/-- When every attempt from `attempt` through `total` fails with a
transient error, the retry loop returns the last attempt's error,
sleeping once per retried attempt and never mutating the file. -/
theorem gitLoop_exhaust (env : Nat → Option GitError) (total d : Nat) :
    ∀ fuel attempt, attempt + fuel = total + 1 → 1 ≤ attempt → attempt ≤ total →
    (∀ a, attempt ≤ a → a ≤ total → ∃ e, env a = some e ∧ isTransient e = true) →
    (gitLoop env total d attempt fuel).1 = env total ∧
    countSleeps (gitLoop env total d attempt fuel).2 = total - attempt ∧
    countMutations (gitLoop env total d attempt fuel).2 = 0 := by
  intro fuel
  induction fuel with
  | zero => intro attempt h1 h2 h3 _; omega
  | succ f ih =>
    intro attempt hsum h1 h3 henv
    obtain ⟨e, he, hte⟩ := henv attempt le_rfl h3
    by_cases hlt : attempt < total
    · have hrec := ih (attempt + 1) (by omega) (by omega) (by omega)
        (fun a ha hb => henv a (by omega) hb)
      obtain ⟨hc1, hc2, hc3⟩ := hrec
      simp only [gitLoop, he, hlt, hte, and_self, if_true, true_and]
      refine ⟨hc1, ?_, ?_⟩
      · rw [countSleeps_cons_gitAttempt, countSleeps_cons_sleep, hc2]
        omega
      · rw [countMutations_cons_gitAttempt, countMutations_cons_sleep, hc3]
    · have heq : attempt = total := by omega
      subst heq
      simp [gitLoop, he, hlt, countSleeps, countMutations, isSleepEv,
        isMutateEv]

/-- Claim C3: (1) a failure not matching a transient pattern propagates
immediately — no retry, no sleep, the file mutation applied exactly
once; (2) when all attempts fail transiently, the executor retries the
whole stage-commit-push sequence up to the configured attempt count,
sleeping the configured delay between attempts (total − 1 sleeps), and
propagates the last attempt's error, never re-applying the file
mutation; (3) if the sequence fails transiently on attempts 1 and 2 and
succeeds on attempt 3 with three configured attempts, the executor
returns success with exactly two retry sleeps of the configured delay
and exactly one file mutation. -/
theorem executeCommit_retry (total d : Nat) :
    (∀ env (e : GitError), 1 ≤ total → env 1 = some e → isTransient e = false →
      executeCommit env total d = (some e, [.mutate, .gitAttempt 1])) ∧
    (∀ env, 1 ≤ total →
      (∀ a, 1 ≤ a → a ≤ total → ∃ e, env a = some e ∧ isTransient e = true) →
      (executeCommit env total d).1 = env total ∧
      countSleeps (executeCommit env total d).2 = total - 1 ∧
      countMutations (executeCommit env total d).2 = 1) ∧
    (∀ env (e1 e2 : GitError), env 1 = some e1 → isTransient e1 = true →
      env 2 = some e2 → isTransient e2 = true → env 3 = none →
      executeCommit env 3 d = (none, [.mutate, .gitAttempt 1, .sleep d,
        .gitAttempt 2, .sleep d, .gitAttempt 3])) := by
  refine ⟨?_, ?_, ?_⟩
  · intro env e ht he hte
    obtain ⟨f, rfl⟩ : ∃ f, total = f + 1 := ⟨total - 1, by omega⟩
    simp [executeCommit, performGitOperations, gitLoop, he, hte]
  · intro env ht henv
    have h := gitLoop_exhaust env total d total 1 (by omega) le_rfl ht henv
    refine ⟨h.1, ?_, ?_⟩
    · simp only [executeCommit, performGitOperations] at h ⊢
      rw [countSleeps_cons_mutate, h.2.1]
    · simp only [executeCommit, performGitOperations] at h ⊢
      rw [countMutations_cons_mutate, h.2.2]
  · intro env e1 e2 h1 ht1 h2 ht2 h3
    simp [executeCommit, performGitOperations, gitLoop, h1, h2, h3, ht1, ht2]

/-- Claim C3 witness: with three configured attempts and a 5000 ms
retry delay — (1) a non-transient failure on attempt 1 propagates at
once with no sleep; (2) all three attempts failing transiently yields
the last error after two sleeps and one mutation; (3) transient
failures on attempts 1 and 2 followed by success yields success, two
sleeps, one mutation. -/
theorem executeCommit_retry_witness :
    executeCommit (fun _ => some ⟨false, false, false⟩) 3 5000 =
      (some ⟨false, false, false⟩, [.mutate, .gitAttempt 1]) ∧
    ((executeCommit (fun _ => some ⟨true, false, false⟩) 3 5000).1 =
        some ⟨true, false, false⟩ ∧
      countSleeps (executeCommit (fun _ => some ⟨true, false, false⟩) 3 5000).2 =
        3 - 1 ∧
      countMutations
        (executeCommit (fun _ => some ⟨true, false, false⟩) 3 5000).2 = 1) ∧
    executeCommit (fun a => if a < 3 then some ⟨false, true, false⟩ else none)
        3 5000 =
      (none, [.mutate, .gitAttempt 1, .sleep 5000, .gitAttempt 2, .sleep 5000,
        .gitAttempt 3]) := by
  refine ⟨?_, ?_, ?_⟩
  · exact (executeCommit_retry 3 5000).1 (fun _ => some ⟨false, false, false⟩)
      ⟨false, false, false⟩ (by decide) rfl (by decide)
  · exact (executeCommit_retry 3 5000).2.1 (fun _ => some ⟨true, false, false⟩)
      (by decide)
      (fun a _ _ => ⟨⟨true, false, false⟩, rfl, by decide⟩)
  · exact (executeCommit_retry 3 5000).2.2
      (fun a => if a < 3 then some ⟨false, true, false⟩ else none)
      ⟨false, true, false⟩ ⟨false, true, false⟩ rfl (by decide) rfl (by decide)
      rfl

/-- Embedding of `getRandomCommitCount` (index.js lines 244-246):
`Math.floor(Math.random() * (MAX_COMMITS - MIN_COMMITS + 1)) +
MIN_COMMITS`, with the `Math.random()` draw `r ∈ [0,1)` passed in
explicitly. -/
def getRandomCommitCount (minC maxC : Int) (r : ℚ) : Int :=
  ⌊r * ((maxC : ℚ) - (minC : ℚ) + 1)⌋ + minC

/-- Embedding of `isWeekend` (index.js lines 230-234): `satOrSun` is
whether the current day (in the configured timezone) is Saturday or
Sunday; with weekends enabled the function reports false outright. -/
def isWeekend (cfg : Config) (satOrSun : Bool) : Bool :=
  if cfg.enableWeekends then false else satOrSun

/-- Embedding of `isWorkingHours` (index.js lines 237-241): the current
hour in the configured timezone lies in `[SCHEDULE_START,
SCHEDULE_END)`. -/
def isWorkingHours (cfg : Config) (hour : Int) : Bool :=
  decide (cfg.scheduleStart ≤ hour) && decide (hour < cfg.scheduleEnd)

/-- Outcome of one scheduler tick (`runBot`): the process exits with a
code, the tick is skipped at a gate, or `commits` executor calls ran
(`early` = the tick reported ending early on quota exhaustion). -/
inductive SkipReason where
  | weekend
  | offHours
  | quota
  deriving DecidableEq, Repr

/-- Result of one `runBot` tick. -/
inductive TickResult where
  | fatal (code : Nat)
  | skipped (reason : SkipReason)
  | ran (commits : Nat) (early : Bool)
  deriving DecidableEq, Repr

/-- The commit loop of `runBot` (index.js lines 436-443): for each of
the planned commits run `modifyFile`, `performGitOperations` (outcomes
of the i-th call's attempts given by `gitEnv i`), and
`updateCommitCount`; an error thrown by the git operations propagates
out of the loop (to `runBot`'s catch). Returns the propagated error (if
any), the tracker cache after the loop, and the number of executor
calls made. -/
def commitLoop (gitEnv : Nat → Nat → Option GitError) (attempts delayMs : Nat) :
    Nat → Tracker → Nat → Option GitError × Tracker × Nat
  | _, st, 0 => (none, st, 0)
  | i, st, n + 1 =>
    match (performGitOperations (gitEnv i) attempts delayMs).1 with
    | some e => (some e, st, 1)
    | none =>
      let rest := commitLoop gitEnv attempts delayMs (i + 1) (updateCommitCount st) n
      (rest.1, rest.2.1, rest.2.2 + 1)

/-- Embedding of `runBot` (index.js lines 404-455): health gate (exit 1
on failure), weekend gate, working-hours gate, quota gate; then draw
the intended burst size, cap it by the remaining quota, run the commit
loop, and report early termination when the intended size exceeded the
planned one and the daily limit is reached; any error escaping the loop
is caught at the tick boundary, logged, and the process exits with
status 1 (the catch of lines 451-454). -/
def runBot (cfg : Config) (health satOrSun : Bool) (hour : Int)
    (gitEnv : Nat → Nat → Option GitError) (r : ℚ) (st : Tracker) (now : Int) :
    TickResult × Tracker :=
  if !health then (.fatal 1, st)
  else if !cfg.enableWeekends && isWeekend cfg satOrSun then (.skipped .weekend, st)
  else if !isWorkingHours cfg hour then (.skipped .offHours, st)
  else
    let g := shouldCommitToday st now cfg.dailyLimit
    if !g.1 then (.skipped .quota, g.2)
    else
      let q := getDailyCommitCount g.2 now
      let intended := getRandomCommitCount cfg.minCommits cfg.maxCommits r
      let planned := min intended (cfg.dailyLimit - q.1)
      let res := commitLoop gitEnv cfg.retryAttempts.toNat cfg.retryDelay.toNat
        0 q.2 planned.toNat
      match res.1 with
      | some _ => (.fatal 1, res.2.1)
      | none =>
        let fin := getDailyCommitCount res.2.1 now
        (.ran res.2.2
          (decide (planned < intended) && decide (cfg.dailyLimit ≤ fin.1)),
         fin.2)

/-- What the self-rescheduling loop does after a tick: either the
process has exited, or the next tick is armed after an interval. -/
inductive SchedStep where
  | exited (code : Nat)
  | next (intervalMs : Nat)
  deriving DecidableEq, Repr

/-- The two-tier re-arm interval of `scheduleNextRun` (index.js line
530): one hour inside the working window (or with weekends enabled),
five minutes otherwise. -/
def nextRunInterval (cfg : Config) (satOrSun : Bool) (hour : Int) : Nat :=
  if cfg.enableWeekends || (!isWeekend cfg satOrSun && isWorkingHours cfg hour)
  then 3600000 else 300000

/-- One iteration of `scheduleNextRun` (index.js lines 527-533): run
the tick; if `runBot` exited the process no further tick is armed,
otherwise `setTimeout` arms the next one. -/
def scheduleNextRunStep (cfg : Config) (health satOrSun : Bool) (hour : Int)
    (gitEnv : Nat → Nat → Option GitError) (r : ℚ) (st : Tracker) (now : Int) :
    SchedStep × Tracker :=
  match runBot cfg health satOrSun hour gitEnv r st now with
  | (.fatal c, st2) => (.exited c, st2)
  | (.skipped _, st2) => (.next (nextRunInterval cfg satOrSun hour), st2)
  | (.ran _ _, st2) => (.next (nextRunInterval cfg satOrSun hour), st2)

/-- The tracker state `getDailyCommitCount` leaves behind always
carries the returned count and is stamped with the current day. -/
theorem getDailyCommitCount_state (st : Tracker) (now : Int) :
    (getDailyCommitCount st now).2 = ⟨(getDailyCommitCount st now).1, now⟩ := by
  obtain ⟨c, d⟩ := st
  by_cases h : d = now <;> simp [getDailyCommitCount, h]

/-- Reading the daily count on a same-day tracker changes nothing. -/
theorem getDailyCommitCount_same (c now : Int) :
    getDailyCommitCount ⟨c, now⟩ now = (c, ⟨c, now⟩) := by
  simp [getDailyCommitCount]

/-- If the first stage-commit-push attempt succeeds, the whole retry
loop succeeds. -/
theorem performGitOperations_fst_none (env : Nat → Option GitError)
    (total d : Nat) (h : env 1 = none) :
    (performGitOperations env total d).1 = none := by
  cases total with
  | zero => rfl
  | succ f => simp [performGitOperations, gitLoop, h]

/-- When every executor call's first attempt succeeds, the commit loop
performs exactly `n` calls and increments the cached count by `n`. -/
theorem commitLoop_success (gitEnv : Nat → Nat → Option GitError)
    (attempts delayMs : Nat) (h : ∀ j, gitEnv j 1 = none) :
    ∀ (n i : Nat) (st : Tracker),
      commitLoop gitEnv attempts delayMs i st n =
        (none, ⟨st.commitCount + n, st.lastRunDate⟩, n) := by
  intro n
  induction n with
  | zero => intro i st; simp [commitLoop]
  | succ k ih =>
    intro i st
    have hp := performGitOperations_fst_none (gitEnv i) attempts delayMs (h i)
    simp only [commitLoop, hp, ih, updateCommitCount, Prod.mk.injEq,
      Tracker.mk.injEq, true_and, and_true]
    omega

/-- The drawn burst size lands in `[minCommits, maxCommits]` for every
random draw in `[0,1)`. -/
theorem getRandomCommitCount_range (minC maxC : Int) (r : ℚ)
    (h0 : 0 ≤ r) (h1 : r < 1) (hle : minC ≤ maxC) :
    minC ≤ getRandomCommitCount minC maxC r ∧
    getRandomCommitCount minC maxC r ≤ maxC := by
  have hc : (minC : ℚ) ≤ (maxC : ℚ) := by exact_mod_cast hle
  have hn : (0 : ℚ) < (maxC : ℚ) - (minC : ℚ) + 1 := by linarith
  have h2 : 0 ≤ ⌊r * ((maxC : ℚ) - (minC : ℚ) + 1)⌋ :=
    Int.floor_nonneg.mpr (mul_nonneg h0 hn.le)
  have h3 : ⌊r * ((maxC : ℚ) - (minC : ℚ) + 1)⌋ < maxC - minC + 1 := by
    rw [Int.floor_lt]
    calc r * ((maxC : ℚ) - (minC : ℚ) + 1)
        < 1 * ((maxC : ℚ) - (minC : ℚ) + 1) := mul_lt_mul_of_pos_right h1 hn
      _ = ((maxC - minC + 1 : ℤ) : ℚ) := by push_cast; ring
  unfold getRandomCommitCount
  omega

/-- The draw takes the value `k` exactly when the raw random number
falls in the half-open interval `[(k-min)/n, (k-min+1)/n)` with
`n = max - min + 1`; these intervals have equal length `1/n`, so a
uniform raw draw induces a uniform burst size. -/
theorem getRandomCommitCount_eq_iff (minC maxC k : Int) (r : ℚ)
    (hle : minC ≤ maxC) :
    getRandomCommitCount minC maxC r = k ↔
      ((k : ℚ) - (minC : ℚ)) / ((maxC : ℚ) - (minC : ℚ) + 1) ≤ r ∧
      r < ((k : ℚ) - (minC : ℚ) + 1) / ((maxC : ℚ) - (minC : ℚ) + 1) := by
  have hc : (minC : ℚ) ≤ (maxC : ℚ) := by exact_mod_cast hle
  have hn : (0 : ℚ) < (maxC : ℚ) - (minC : ℚ) + 1 := by linarith
  have hsplit : getRandomCommitCount minC maxC r = k ↔
      ⌊r * ((maxC : ℚ) - (minC : ℚ) + 1)⌋ = k - minC := by
    unfold getRandomCommitCount
    omega
  rw [hsplit, Int.floor_eq_iff, div_le_iff₀ hn, lt_div_iff₀ hn]
  constructor
  · rintro ⟨ha, hb⟩
    constructor
    · push_cast at ha ⊢
      linarith
    · push_cast at hb ⊢
      linarith
  · rintro ⟨ha, hb⟩
    constructor
    · push_cast at ha ⊢
      linarith
    · push_cast at hb ⊢
      linarith

/-- Full evaluation of a successful tick: with the health, weekend,
hours and quota gates all passing and every executor call succeeding on
its first attempt, `runBot` executes `min(intended, remaining)` calls,
raises the cached count by that amount, and reports early termination
exactly when the intended burst exceeded the plan. -/
theorem runBot_success_eval (cfg : Config) (satOrSun : Bool) (hour : Int)
    (gitEnv : Nat → Nat → Option GitError) (r : ℚ) (st : Tracker) (now : Int)
    (hwk : cfg.enableWeekends = true ∨ satOrSun = false)
    (hhr : isWorkingHours cfg hour = true)
    (hq : (getDailyCommitCount st now).1 < cfg.dailyLimit)
    (hgit : ∀ j, gitEnv j 1 = none)
    (hr0 : 0 ≤ r) (hr1 : r < 1)
    (hmin : 1 ≤ cfg.minCommits) (hmm : cfg.minCommits ≤ cfg.maxCommits) :
    runBot cfg true satOrSun hour gitEnv r st now =
      (.ran (min (getRandomCommitCount cfg.minCommits cfg.maxCommits r)
          (cfg.dailyLimit - (getDailyCommitCount st now).1)).toNat
        (decide (min (getRandomCommitCount cfg.minCommits cfg.maxCommits r)
            (cfg.dailyLimit - (getDailyCommitCount st now).1) <
          getRandomCommitCount cfg.minCommits cfg.maxCommits r)),
       ⟨(getDailyCommitCount st now).1 +
          min (getRandomCommitCount cfg.minCommits cfg.maxCommits r)
            (cfg.dailyLimit - (getDailyCommitCount st now).1), now⟩) := by
  have hIrange := getRandomCommitCount_range cfg.minCommits cfg.maxCommits r
    hr0 hr1 hmm
  set c0 := (getDailyCommitCount st now).1 with hc0
  set I := getRandomCommitCount cfg.minCommits cfg.maxCommits r with hI
  set P := min I (cfg.dailyLimit - c0) with hP
  have hP1 : 1 ≤ P := by
    rw [hP]
    refine le_min ?_ ?_
    · omega
    · omega
  have hPnn : (P.toNat : Int) = P := Int.toNat_of_nonneg (by omega)
  have hwkgate : (!cfg.enableWeekends && isWeekend cfg satOrSun) = false := by
    rcases hwk with h | h <;> simp [isWeekend, h]
  have hgate : (shouldCommitToday st now cfg.dailyLimit).1 = true := by
    simp [shouldCommitToday]
    omega
  have hst2 : (shouldCommitToday st now cfg.dailyLimit).2 = ⟨c0, now⟩ := by
    simp [shouldCommitToday, getDailyCommitCount_state, hc0]
  have hloop := commitLoop_success gitEnv cfg.retryAttempts.toNat
    cfg.retryDelay.toNat hgit P.toNat 0 ⟨c0, now⟩
  simp only [runBot, Bool.not_true, Bool.false_eq_true, if_false, hwkgate,
    hhr, hgate, hst2, getDailyCommitCount_same, Bool.not_false, if_true,
    Bool.true_eq_false, ← hI, ← hP, hloop, getDailyCommitCount_state]
  have hearly : (decide (P < I) && decide (cfg.dailyLimit ≤ c0 + (P.toNat : Int)))
      = decide (P < I) := by
    by_cases hPI : P < I
    · have hPrem : P = cfg.dailyLimit - c0 := by omega
      have hle2 : cfg.dailyLimit ≤ c0 + P := by omega
      simp [hPI, hPnn, hle2]
    · simp [hPI]
  rw [hearly, hPnn]

/-- Claim C7: when the health, weekend, hours and quota gates all pass
and the executor succeeds, the tick draws `intended` from
`[minCommits, maxCommits]` — uniformly, in that each value is hit
exactly on a raw-draw interval of length `1/(max-min+1)` — executes
exactly `planned = min(intended, remaining)` sequential executor calls
(raising the tracked count by that amount), and reports early
termination precisely when `intended > planned`. -/
theorem runBot_tick_planning (cfg : Config) (satOrSun : Bool) (hour : Int)
    (gitEnv : Nat → Nat → Option GitError) (r : ℚ) (st : Tracker) (now : Int)
    (hwk : cfg.enableWeekends = true ∨ satOrSun = false)
    (hhr : isWorkingHours cfg hour = true)
    (hq : (getDailyCommitCount st now).1 < cfg.dailyLimit)
    (hgit : ∀ j, gitEnv j 1 = none)
    (hr0 : 0 ≤ r) (hr1 : r < 1)
    (hmin : 1 ≤ cfg.minCommits) (hmm : cfg.minCommits ≤ cfg.maxCommits) :
    cfg.minCommits ≤ getRandomCommitCount cfg.minCommits cfg.maxCommits r ∧
    getRandomCommitCount cfg.minCommits cfg.maxCommits r ≤ cfg.maxCommits ∧
    (∀ k : Int, getRandomCommitCount cfg.minCommits cfg.maxCommits r = k ↔
      ((k : ℚ) - (cfg.minCommits : ℚ)) /
          ((cfg.maxCommits : ℚ) - (cfg.minCommits : ℚ) + 1) ≤ r ∧
      r < ((k : ℚ) - (cfg.minCommits : ℚ) + 1) /
          ((cfg.maxCommits : ℚ) - (cfg.minCommits : ℚ) + 1)) ∧
    runBot cfg true satOrSun hour gitEnv r st now =
      (TickResult.ran
        (min (getRandomCommitCount cfg.minCommits cfg.maxCommits r)
          (cfg.dailyLimit - (getDailyCommitCount st now).1)).toNat
        (decide (min (getRandomCommitCount cfg.minCommits cfg.maxCommits r)
            (cfg.dailyLimit - (getDailyCommitCount st now).1) <
          getRandomCommitCount cfg.minCommits cfg.maxCommits r)),
       ⟨(getDailyCommitCount st now).1 +
          min (getRandomCommitCount cfg.minCommits cfg.maxCommits r)
            (cfg.dailyLimit - (getDailyCommitCount st now).1), now⟩) := by
  obtain ⟨h1, h2⟩ := getRandomCommitCount_range cfg.minCommits cfg.maxCommits r
    hr0 hr1 hmm
  exact ⟨h1, h2,
    fun k => getRandomCommitCount_eq_iff cfg.minCommits cfg.maxCommits k r hmm,
    runBot_success_eval cfg satOrSun hour gitEnv r st now hwk hhr hq hgit
      hr0 hr1 hmin hmm⟩

/-- Claim C7 witness: with minCommits = maxCommits = 2 and dailyLimit =
1, a single tick on a fresh day performs exactly 1 commit and reports
early termination. -/
theorem runBot_tick_planning_witness :
    isWorkingHours ⟨2, 2, 1, 1000, 5000, 9, 17, 3, 5000, false⟩ 10 = true ∧
    (getDailyCommitCount ⟨0, 5⟩ 5).1 < 1 ∧
    runBot ⟨2, 2, 1, 1000, 5000, 9, 17, 3, 5000, false⟩ true false 10
      (fun _ _ => none) 0 ⟨0, 5⟩ 5 = (.ran 1 true, ⟨1, 5⟩) := by
  have h := runBot_tick_planning ⟨2, 2, 1, 1000, 5000, 9, 17, 3, 5000, false⟩
    false 10 (fun _ _ => none) 0 ⟨0, 5⟩ 5 (Or.inr rfl) (by decide) (by decide)
    (fun _ => rfl) (by norm_num) (by norm_num) (by decide) (by decide)
  have h4 := h.2.2.2
  norm_num [getRandomCommitCount, getDailyCommitCount] at h4
  exact ⟨by decide, by decide, h4⟩

/-- Small-step lemma: an executor-call failure propagates out of the
commit loop at once, leaving the tracker as it was. -/
theorem commitLoop_fail (gitEnv : Nat → Nat → Option GitError)
    (attempts delayMs i n : Nat) (st : Tracker) (e : GitError)
    (hf : (performGitOperations (gitEnv i) attempts delayMs).1 = some e) :
    commitLoop gitEnv attempts delayMs i st (n + 1) = (some e, st, 1) := by
  simp [commitLoop, hf]

/-- Full evaluation of a tick whose first executor call fails: the
error is caught at the tick boundary and the process exits with status
1 (the tracker cache holds the rolled-over pre-loop state). -/
theorem runBot_failfirst_eval (cfg : Config) (satOrSun : Bool) (hour : Int)
    (gitEnv : Nat → Nat → Option GitError) (r : ℚ) (st : Tracker) (now : Int)
    (e : GitError)
    (hwk : cfg.enableWeekends = true ∨ satOrSun = false)
    (hhr : isWorkingHours cfg hour = true)
    (hq : (getDailyCommitCount st now).1 < cfg.dailyLimit)
    (hr0 : 0 ≤ r) (hr1 : r < 1)
    (hmin : 1 ≤ cfg.minCommits) (hmm : cfg.minCommits ≤ cfg.maxCommits)
    (hfail : (performGitOperations (gitEnv 0) cfg.retryAttempts.toNat
      cfg.retryDelay.toNat).1 = some e) :
    runBot cfg true satOrSun hour gitEnv r st now =
      (.fatal 1, ⟨(getDailyCommitCount st now).1, now⟩) := by
  have hIrange := getRandomCommitCount_range cfg.minCommits cfg.maxCommits r
    hr0 hr1 hmm
  set c0 := (getDailyCommitCount st now).1 with hc0
  set I := getRandomCommitCount cfg.minCommits cfg.maxCommits r with hI
  set P := min I (cfg.dailyLimit - c0) with hP
  have hP1 : 1 ≤ P := by
    rw [hP]
    refine le_min ?_ ?_ <;> omega
  obtain ⟨m, hm⟩ : ∃ m, P.toNat = m + 1 := ⟨P.toNat - 1, by omega⟩
  have hwkgate : (!cfg.enableWeekends && isWeekend cfg satOrSun) = false := by
    rcases hwk with h | h <;> simp [isWeekend, h]
  have hgate : (shouldCommitToday st now cfg.dailyLimit).1 = true := by
    simp [shouldCommitToday]
    omega
  have hst2 : (shouldCommitToday st now cfg.dailyLimit).2 = ⟨c0, now⟩ := by
    simp [shouldCommitToday, getDailyCommitCount_state, hc0]
  have hloop := commitLoop_fail gitEnv cfg.retryAttempts.toNat
    cfg.retryDelay.toNat 0 m ⟨c0, now⟩ e hfail
  simp only [runBot, Bool.not_true, Bool.false_eq_true, if_false, hwkgate,
    hhr, hgate, hst2, getDailyCommitCount_same, Bool.not_false, if_true,
    Bool.true_eq_false, ← hI, ← hP, hm, hloop]

/-- Claim C1 counterexample: with all gates passing and the executor
failing permanently (a non-transient error on every attempt), the
scheduler step exits the process with status 1 — it does not log and
continue to a next scheduled tick as the claim asserts. -/
theorem scheduler_exits_on_execution_failure :
    scheduleNextRunStep ⟨1, 10, 15, 1000, 5000, 9, 17, 3, 5000, false⟩ true
      false 10 (fun _ _ => some ⟨false, false, false⟩) 0 ⟨0, 0⟩ 0 =
      (.exited 1, ⟨0, 0⟩) := by
  have hf := runBot_failfirst_eval ⟨1, 10, 15, 1000, 5000, 9, 17, 3, 5000, false⟩
    false 10 (fun _ _ => some ⟨false, false, false⟩) 0 ⟨0, 0⟩ 0
    ⟨false, false, false⟩ (Or.inr rfl) (by decide) (by decide) (by norm_num)
    (by norm_num) (by decide) (by decide) rfl
  simp [scheduleNextRunStep, hf, getDailyCommitCount]

/-- Claim C1 (amended): an execution failure that escapes the executor
(permanent error or retry exhaustion) is caught at the tick boundary
and logged, but the catch handler then exits the process with status 1
— the scheduler does not continue to the next scheduled tick; only a
tick without such a failure arms the next run. -/
theorem runBot_execution_failure_exits (cfg : Config) (satOrSun : Bool)
    (hour : Int) (gitEnv : Nat → Nat → Option GitError) (r : ℚ) (st : Tracker)
    (now : Int) (e : GitError)
    (hwk : cfg.enableWeekends = true ∨ satOrSun = false)
    (hhr : isWorkingHours cfg hour = true)
    (hq : (getDailyCommitCount st now).1 < cfg.dailyLimit)
    (hr0 : 0 ≤ r) (hr1 : r < 1)
    (hmin : 1 ≤ cfg.minCommits) (hmm : cfg.minCommits ≤ cfg.maxCommits)
    (hfail : (performGitOperations (gitEnv 0) cfg.retryAttempts.toNat
      cfg.retryDelay.toNat).1 = some e) :
    (runBot cfg true satOrSun hour gitEnv r st now).1 = .fatal 1 ∧
    scheduleNextRunStep cfg true satOrSun hour gitEnv r st now =
      (.exited 1, ⟨(getDailyCommitCount st now).1, now⟩) ∧
    (∀ gitEnv2, (∀ j, gitEnv2 j 1 = none) →
      (scheduleNextRunStep cfg true satOrSun hour gitEnv2 r st now).1 =
        .next (nextRunInterval cfg satOrSun hour)) := by
  have hf := runBot_failfirst_eval cfg satOrSun hour gitEnv r st now e
    hwk hhr hq hr0 hr1 hmin hmm hfail
  refine ⟨by rw [hf], by simp [scheduleNextRunStep, hf], ?_⟩
  intro g2 hg2
  have hs := runBot_success_eval cfg satOrSun hour g2 r st now hwk hhr hq hg2
    hr0 hr1 hmin hmm
  simp [scheduleNextRunStep, hs]

/-- Claim C1 witness: concrete instantiation — a permanently failing
executor makes the tick fatal and the scheduler step exit 1, while a
succeeding executor on the same state arms the next tick an hour
later. -/
theorem runBot_execution_failure_exits_witness :
    (runBot ⟨1, 10, 15, 1000, 5000, 9, 17, 3, 5000, false⟩ true false 10
      (fun _ _ => some ⟨false, false, false⟩) 0 ⟨0, 0⟩ 0).1 = .fatal 1 ∧
    scheduleNextRunStep ⟨1, 10, 15, 1000, 5000, 9, 17, 3, 5000, false⟩ true
      false 10 (fun _ _ => some ⟨false, false, false⟩) 0 ⟨0, 0⟩ 0 =
      (.exited 1, ⟨(getDailyCommitCount ⟨0, 0⟩ 0).1, 0⟩) ∧
    (scheduleNextRunStep ⟨1, 10, 15, 1000, 5000, 9, 17, 3, 5000, false⟩ true
      false 10 (fun _ _ => none) 0 ⟨0, 0⟩ 0).1 = .next 3600000 := by
  have h := runBot_execution_failure_exits
    ⟨1, 10, 15, 1000, 5000, 9, 17, 3, 5000, false⟩ false 10
    (fun _ _ => some ⟨false, false, false⟩) 0 ⟨0, 0⟩ 0 ⟨false, false, false⟩
    (Or.inr rfl) (by decide) (by decide) (by norm_num) (by norm_num)
    (by decide) (by decide) rfl
  refine ⟨h.1, h.2.1, ?_⟩
  have h3 := h.2.2 (fun _ _ => none) (fun _ => rfl)
  simpa [nextRunInterval, isWeekend, isWorkingHours] using h3

end GitChronos
